import Mathlib

set_option autoImplicit false

/-!
Shallow embedding of the `git` package of go-git-utils (src/utils.go, the
revision with the exported `GitCmd`/`GitOutput`/`FormatOutput` helpers).

Every library function launches one `git` subprocess and inspects its
captured combined output, exit code, and the error value Go's
`exec.Cmd.Run`/`CombinedOutput` returned.  We model the outcome of one
subprocess launch as an `ExecResult`:

* `started = false` models `exec.Cmd.Run` failing before a process state
  exists (e.g. the `git` binary cannot be started); Go then returns the
  start error (`startErrMsg`) with empty captured output, and
  `cmd.ProcessState` is `nil`.
* `started = true` models a process that ran to completion with exit code
  `exitCode` and captured combined output `output`; Go's error value is
  `nil` for exit code 0 and an `*exec.ExitError` whose message is
  `"exit status <code>"` otherwise.

Functions that issue a single invocation take the `ExecResult` of that
invocation as a parameter; functions issuing several take an oracle
`List String → ExecResult` from argument list to outcome.  Go panics
(index out of range) are modelled by `GoResult.panic`.
`strings.TrimSpace` is modelled by `trimSpace` below, restricted to the
ASCII whitespace characters of `unicode.IsSpace` (the non-ASCII space
code points play no role in any claim).
-/

/-- Go's `unicode.IsSpace`, restricted to ASCII. -/
def goIsSpace (c : Char) : Bool :=
  c = ' ' || c = '\t' || c = '\n' || c = '\x0b' || c = '\x0c' || c = '\r'

/-- Go's `strings.TrimSpace`: drop leading and trailing whitespace. -/
def trimSpace (s : String) : String :=
  String.mk (((s.data.dropWhile goIsSpace).reverse.dropWhile goIsSpace).reverse)

structure ExecResult where
  started : Bool
  startErrMsg : String
  exitCode : Int
  output : String
deriving DecidableEq

/-- The error value of Go's `cmd.Run()` / `cmd.CombinedOutput()`:
`nil` (`none`) exactly when the process started and exited 0;
the start error when the process never started; otherwise the
`*exec.ExitError` message `"exit status <code>"`. -/
def runErrMsg (r : ExecResult) : Option String :=
  if r.started = false then some r.startErrMsg
  else if r.exitCode = 0 then none
  else some ("exit status " ++ toString r.exitCode)

/-- Go's `cmd.CombinedOutput()`: the captured combined output (empty when
the process never started) paired with the `Run` error. -/
def combinedOutput (r : ExecResult) : String × Option String :=
  (if r.started = true then r.output else "", runErrMsg r)

/-- Go's `cmd.String()` for `exec.Command("git", arg...)`: the command
line as executed, i.e. the binary followed by the arguments joined by
spaces (we keep the name `git` for the resolved path). -/
def cmdString (args : List String) : String :=
  String.intercalate " " ("git" :: args)

/-- `func (cmd *Cmd) FormatOutput(output []byte, err error) (string, error)`:
on a non-nil error, `("", fmt.Errorf("%s: %s\n%s", err, cmd.String(), output))`;
otherwise the output with surrounding whitespace trimmed and a nil error.
Errors are modelled by their message strings. -/
def FormatOutput (args : List String) : String × Option String → String × Option String
  | (output, some e) => ("", some (e ++ ": " ++ cmdString args ++ "\n" ++ output))
  | (output, none) => (trimSpace output, none)

/-- `func GitOutput(arg ...string) (string, error)` applied to the outcome
`r` of its single subprocess launch.  (`gitOutput` of the unexported
revision is letter-for-letter the same composition.) -/
def GitOutput (r : ExecResult) (args : List String) : String × Option String :=
  FormatOutput args (combinedOutput r)

/-- C1: when the spawned subprocess exits with a non-zero code, the
command-runner primitive returns an error whose message is the underlying
execution error, then the reconstructed command line, then the raw
captured combined output, concatenated in that order. -/
theorem gitOutput_nonzero_exit (args : List String) (r : ExecResult)
    (hs : r.started = true) (hne : r.exitCode ≠ 0) :
    GitOutput r args =
      ("", some ((("exit status " ++ toString r.exitCode) ++ ": " ++ cmdString args)
        ++ "\n" ++ r.output)) := by
  simp [GitOutput, combinedOutput, runErrMsg, FormatOutput, hs, hne]

/-- Witness for C1 at a concrete failing invocation. -/
theorem gitOutput_nonzero_exit_witness :
    GitOutput ⟨true, "", 128, "fatal: bad ref"⟩ ["rev-parse", "--verify", "zzz"] =
      ("", some "exit status 128: git rev-parse --verify zzz\nfatal: bad ref") := by
  rw [gitOutput_nonzero_exit ["rev-parse", "--verify", "zzz"]
    ⟨true, "", 128, "fatal: bad ref"⟩ rfl (by decide)]
  rfl

/-- C2: when the spawned subprocess exits with code zero, the
command-runner primitive returns the captured combined output with leading
and trailing whitespace removed, and no error. -/
theorem gitOutput_zero_exit (args : List String) (r : ExecResult)
    (hs : r.started = true) (h0 : r.exitCode = 0) :
    GitOutput r args = (trimSpace r.output, none) := by
  simp [GitOutput, combinedOutput, runErrMsg, FormatOutput, hs, h0]

/-- Witness for C2 at a concrete successful invocation. -/
theorem gitOutput_zero_exit_witness :
    GitOutput ⟨true, "", 0, "  main\n"⟩ ["branch", "--show-current"] = ("main", none) := by
  rw [gitOutput_zero_exit ["branch", "--show-current"] ⟨true, "", 0, "  main\n"⟩ rfl rfl]
  decide

/-- Outcome of a Go function call that can panic. -/
inductive GoResult (α : Type) where
  | ok : α → GoResult α
  | panic : String → GoResult α
deriving DecidableEq

/-- `func Diff(ref1, ref2 string) (buf *bytes.Buffer, err error)`: both
`cmd.Stdout` and `cmd.Stderr` are wired to `buf`, so the buffer holds the
combined output; the raw error of `cmd.Run()` is returned unchanged next
to the buffer. -/
def Diff (r : ExecResult) : String × Option String :=
  combinedOutput r

/-- `func IsDifferent(ref1, ref2 string) (bool, error)`: on a diff error,
`(true, err)`; on success, `false` iff the buffer is empty. -/
def IsDifferent (r : ExecResult) : Bool × Option String :=
  match Diff r with
  | (_, some e) => (true, some e)
  | (buf, none) => if buf.data.isEmpty then (false, none) else (true, none)

/-- `func GetCurrentBranchName() (name string, err error)`: on error,
`fmt.Errorf("%s: %s", err, output)` — the error message and the captured
output, with no command-line text; on success the trimmed output. -/
def GetCurrentBranchName (r : ExecResult) : String × Option String :=
  match combinedOutput r with
  | (output, some e) => ("", some (e ++ ": " ++ output))
  | (output, none) => (trimSpace output, none)

/-- The line-scanning loop of `HasChanges`, reading through
`bufio.Reader.ReadString('\n')`.  The loop body runs only for lines
handed back with a nil read error, i.e. newline-terminated lines; a read
that hits end-of-data (`io.EOF`) ends the loop before its line is
processed — a trailing unterminated line is dropped — and the loop then
returns false.  (The zero-value empty `line` of the first iteration is
skipped by the `len(line) == 0` check; a newline-terminated line is never
empty, so that check fires only there.)  Each processed line is trimmed
and `line[0]` of the trimmed line is inspected: a panic when the trimmed
line is empty, `continue` when it is `?`, otherwise return true.
`acc` holds the (reversed) characters read so far on the current line. -/
def scanStatusGo (acc : List Char) : List Char → GoResult Bool
  | [] => GoResult.ok false
  | c :: cs =>
    if c = '\n' then
      match (trimSpace (String.mk (acc.reverse ++ [c]))).data with
      | [] => GoResult.panic "runtime error: index out of range"
      | c0 :: _ => if c0 = '?' then scanStatusGo [] cs else GoResult.ok true
    else scanStatusGo (c :: acc) cs

/-- The scan of `HasChanges` started on the full buffered output. -/
def scanStatus (buf : List Char) : GoResult Bool := scanStatusGo [] buf

/-- The newline-terminated lines of a character buffer (each including
its final newline); a trailing unterminated segment is not a line. -/
def termLinesGo (acc : List Char) : List Char → List (List Char)
  | [] => []
  | c :: cs =>
    if c = '\n' then (acc.reverse ++ [c]) :: termLinesGo [] cs
    else termLinesGo (c :: acc) cs

/-- The newline-terminated lines of the full buffered output. -/
def termLines (buf : List Char) : List (List Char) := termLinesGo [] buf

/-- `func HasChanges() (bool, error)`: on a `Run` error,
`(true, fmt.Errorf("error running \x60git status -s\x60: %s", err))` — no
captured output attached; on success, scan the buffered status lines. -/
def HasChanges (r : ExecResult) : GoResult (Bool × Option String) :=
  match runErrMsg r with
  | some e => GoResult.ok (true, some ("error running `git status -s`: " ++ e))
  | none =>
    match scanStatus r.output.data with
    | GoResult.ok b => GoResult.ok (b, none)
    | GoResult.panic m => GoResult.panic m

/-- `func IsAncestor(ref1, ref2 string) (bool, error)`: run
`git merge-base --is-ancestor ref1 ref2`, format the error, then branch on
`cmd.ProcessState.ExitCode()`.  When the process never started,
`cmd.ProcessState` is `nil`; Go's `(*os.ProcessState).ExitCode` nil-checks
its receiver (`if p == nil || !p.done() { return -1 }`), so the observed
exit code is `-1` and the function falls through to the final branch,
returning the formatted error. -/
def IsAncestor (ref1 ref2 : String) (r : ExecResult) : GoResult (Bool × Option String) :=
  let err := (FormatOutput ["merge-base", "--is-ancestor", ref1, ref2] (combinedOutput r)).2
  let exitCode : Int := if r.started = true then r.exitCode else -1
  if exitCode = 0 then GoResult.ok (true, none)
  else if exitCode = 1 then GoResult.ok (false, none)
  else GoResult.ok (false, err)

/-- `GitOutput` issued through an oracle mapping each argument list to the
outcome of its subprocess. -/
def GitOutputVia (exec : List String → ExecResult) (args : List String) : String × Option String :=
  GitOutput (exec args) args

/-- `func GetPushRemoteForBranch(branch string) (string, error)`: read
`branch.<b>.pushRemote`; on success return it; otherwise read
`branch.<b>.remote` and return it, or the second read's error. -/
def GetPushRemoteForBranch (exec : List String → ExecResult) (branch : String) :
    String × Option String :=
  let pushRemotePath := "branch." ++ branch ++ ".pushRemote"
  let remotePath := "branch." ++ branch ++ ".remote"
  match GitOutputVia exec ["config", "--get", pushRemotePath] with
  | (pushRemote, none) => (pushRemote, none)
  | (_, some _) =>
    match GitOutputVia exec ["config", "--get", remotePath] with
    | (_, some e) => ("", some e)
    | (remote, none) => (remote, none)

/-- C7: IsDifferent returns false exactly when the underlying diff
invocation succeeds and produces empty output; in particular, whenever
diffing refs with no content difference succeeds with empty output,
IsDifferent returns false for them. -/
theorem isDifferent_false_iff (r : ExecResult) :
    (IsDifferent r).1 = false ↔ (runErrMsg r = none ∧ r.output = "") := by
  obtain ⟨st, serr, code, out⟩ := r
  cases st with
  | false => simp [IsDifferent, Diff, combinedOutput, runErrMsg]
  | true =>
    by_cases h0 : code = 0
    · subst h0
      obtain ⟨l⟩ := out
      cases l with
      | nil => simp [IsDifferent, Diff, combinedOutput, runErrMsg, String.ext_iff]
      | cons c cs => simp [IsDifferent, Diff, combinedOutput, runErrMsg, String.ext_iff]
    · simp [IsDifferent, Diff, combinedOutput, runErrMsg, h0]

/-- C10: whenever the underlying invocation fails, IsDifferent returns
true with the error and HasChanges returns true with its error; and
neither check ever pairs false with a non-nil error. -/
theorem boolChecks_error_branch (r : ExecResult) :
    (∀ e, runErrMsg r = some e →
      IsDifferent r = (true, some e) ∧
      HasChanges r = GoResult.ok (true, some ("error running `git status -s`: " ++ e))) ∧
    (∀ b e, IsDifferent r = (b, some e) → b = true) ∧
    (∀ b e, HasChanges r = GoResult.ok (b, some e) → b = true) := by
  refine ⟨?_, ?_, ?_⟩
  · intro e he
    exact ⟨by simp [IsDifferent, Diff, combinedOutput, he], by simp [HasChanges, he]⟩
  · intro b e h
    cases he : runErrMsg r with
    | some e2 =>
      simp [IsDifferent, Diff, combinedOutput, he] at h
      exact h.1
    | none =>
      simp [IsDifferent, Diff, combinedOutput, he] at h
      split at h <;> (try split at h) <;> simp_all
  · intro b e h
    cases he : runErrMsg r with
    | some e2 => simp [HasChanges, he] at h; exact h.1
    | none =>
      simp [HasChanges, he] at h
      cases hscan : scanStatus r.output.data <;> simp [hscan] at h

/-- Witness for C10: a start failure makes both checks report true with
the error. -/
theorem boolChecks_error_branch_witness :
    IsDifferent ⟨false, "fork/exec failed", 0, ""⟩ = (true, some "fork/exec failed") ∧
    HasChanges ⟨false, "fork/exec failed", 0, ""⟩ =
      GoResult.ok (true, some "error running `git status -s`: fork/exec failed") := by
  have h := (boolChecks_error_branch ⟨false, "fork/exec failed", 0, ""⟩).1 "fork/exec failed" rfl
  refine ⟨h.1, ?_⟩
  rw [h.2]
  rfl

/-- C4: IsAncestor maps exit code 0 to `(true, nil)`, exit code 1 to
`(false, nil)`, and any other exit code to an error. -/
theorem isAncestor_exit_codes (ref1 ref2 : String) (r : ExecResult)
    (hs : r.started = true) :
    (r.exitCode = 0 → IsAncestor ref1 ref2 r = GoResult.ok (true, none)) ∧
    (r.exitCode = 1 → IsAncestor ref1 ref2 r = GoResult.ok (false, none)) ∧
    (r.exitCode ≠ 0 → r.exitCode ≠ 1 →
      IsAncestor ref1 ref2 r = GoResult.ok (false,
        some ((("exit status " ++ toString r.exitCode) ++ ": " ++
          cmdString ["merge-base", "--is-ancestor", ref1, ref2]) ++ "\n" ++ r.output))) := by
  refine ⟨?_, ?_, ?_⟩
  · intro h0; simp [IsAncestor, hs, h0]
  · intro h1; simp [IsAncestor, hs, h1]
  · intro h0 h1
    simp [IsAncestor, FormatOutput, combinedOutput, runErrMsg, hs, h0, h1]

/-- Witness for C4 at the three exit-code classes. -/
theorem isAncestor_exit_codes_witness :
    IsAncestor "a" "b" ⟨true, "", 0, ""⟩ = GoResult.ok (true, none) ∧
    IsAncestor "a" "b" ⟨true, "", 1, ""⟩ = GoResult.ok (false, none) ∧
    IsAncestor "a" "b" ⟨true, "", 128, "fatal: bad ref"⟩ =
      GoResult.ok (false,
        some "exit status 128: git merge-base --is-ancestor a b\nfatal: bad ref") := by
  refine ⟨(isAncestor_exit_codes "a" "b" ⟨true, "", 0, ""⟩ rfl).1 rfl,
    (isAncestor_exit_codes "a" "b" ⟨true, "", 1, ""⟩ rfl).2.1 rfl, ?_⟩
  rw [(isAncestor_exit_codes "a" "b" ⟨true, "", 128, "fatal: bad ref"⟩ rfl).2.2
    (by decide) (by decide)]
  rfl

/-- C9 counterexample: when the external tool cannot be started, the
ancestry check does not panic — `ExitCode()`'s nil-receiver guard yields
`-1`, and IsAncestor returns false together with the formatted error. -/
theorem isAncestor_start_failure_no_panic :
    IsAncestor "a" "b" ⟨false, "exec: git: executable file not found", 0, ""⟩ =
      GoResult.ok (false,
        some "exec: git: executable file not found: git merge-base --is-ancestor a b\n") := by
  decide

/-- C9 amended: when the ancestry-check subprocess fails before a process
state exists, `cmd.ProcessState` is nil and `ExitCode()` returns `-1`
(its receiver is nil-checked), so IsAncestor falls through to the final
branch and returns false with the formatted start error — an error, not a
panic.  (The captured output is empty in this case, hence the trailing
empty segment of the message.) -/
theorem isAncestor_start_failure_error (ref1 ref2 : String) (r : ExecResult)
    (hs : r.started = false) :
    IsAncestor ref1 ref2 r = GoResult.ok (false,
      some ((r.startErrMsg ++ ": " ++ cmdString ["merge-base", "--is-ancestor", ref1, ref2])
        ++ "\n" ++ "")) := by
  simp [IsAncestor, FormatOutput, combinedOutput, runErrMsg, hs]

/-- Witness for the amended C9: a start failure with a stale exit-code
field, exercising the `-1` fall-through. -/
theorem isAncestor_start_failure_error_witness :
    IsAncestor "x" "y" ⟨false, "fork/exec git: no such file or directory", 7, "ignored"⟩ =
      GoResult.ok (false,
        some "fork/exec git: no such file or directory: git merge-base --is-ancestor x y\n") := by
  rw [isAncestor_start_failure_error "x" "y"
    ⟨false, "fork/exec git: no such file or directory", 7, "ignored"⟩ rfl]
  rfl

/-- C8: a status line that is non-empty before trimming but consists
entirely of whitespace trims to the empty string, whose position 0 the
scan then indexes: HasChanges panics, so the line-scanning loop is not
total over all output strings. -/
theorem hasChanges_whitespace_line_panics :
    HasChanges ⟨true, "", 0, " \n"⟩ = GoResult.panic "runtime error: index out of range" := by
  decide

/-- Spec-side reading of "output line" for the has-changes claim: the
maximal newline-free segments of the output. -/
def splitLinesGo (acc : List Char) : List Char → List (List Char)
  | [] => [acc.reverse]
  | c :: cs =>
    if c = '\n' then acc.reverse :: splitLinesGo [] cs
    else splitLinesGo (c :: acc) cs

/-- Spec-side: the nonempty output lines. -/
def claimLines (s : String) : List (List Char) :=
  (splitLinesGo [] s.data).filter (fun l => !l.isEmpty)

/-- Spec-side rendering of the claimed has-changes result: true exactly
when some output line does not begin with `?`. -/
def claimedHasChanges (s : String) : Bool :=
  (claimLines s).any (fun l =>
    match l with
    | [] => false
    | c :: _ => c != '?')

/-- C6 counterexample: for the successful status output `"M"` — a single
line that does not begin with `?` — the claim demands true, but
HasChanges returns false, because the scan drops the trailing
unterminated line. -/
theorem hasChanges_claim_counterexample :
    HasChanges ⟨true, "", 0, "M"⟩ = GoResult.ok (false, none) ∧
    claimedHasChanges "M" = true := by
  decide

theorem scanStatusGo_characterization (buf : List Char) : ∀ acc : List Char,
    (∀ l ∈ termLinesGo acc buf, (trimSpace (String.mk l)).data ≠ []) →
    scanStatusGo acc buf =
      GoResult.ok ((termLinesGo acc buf).any
        (fun l => (trimSpace (String.mk l)).data.headD '?' != '?')) := by
  induction buf with
  | nil => intro acc hws; simp [scanStatusGo, termLinesGo]
  | cons c cs ih =>
    intro acc hws
    by_cases hc : c = '\n'
    · subst hc
      have hmem : termLinesGo acc ('\n' :: cs) =
          (acc.reverse ++ ['\n']) :: termLinesGo [] cs := by
        simp [termLinesGo]
      have hline : (trimSpace (String.mk (acc.reverse ++ ['\n']))).data ≠ [] := by
        apply hws
        rw [hmem]
        exact List.mem_cons_self _ _
      cases hdata : (trimSpace (String.mk (acc.reverse ++ ['\n']))).data with
      | nil => exact absurd hdata hline
      | cons c0 rest =>
        have hws2 : ∀ l ∈ termLinesGo [] cs, (trimSpace (String.mk l)).data ≠ [] := by
          intro l hl
          apply hws
          rw [hmem]
          exact List.mem_cons_of_mem _ hl
        by_cases hq : c0 = '?'
        · subst hq
          simp [scanStatusGo, termLinesGo, hdata, ih [] hws2]
        · simp [scanStatusGo, termLinesGo, hdata, hq]
    · have hws2 : ∀ l ∈ termLinesGo (c :: acc) cs,
          (trimSpace (String.mk l)).data ≠ [] := by
        intro l hl
        apply hws
        simpa [termLinesGo, hc] using hl
      simp [scanStatusGo, termLinesGo, hc, ih (c :: acc) hws2]

/-- C6 amended: when the status subprocess succeeds, only the
newline-terminated output lines are scanned (a trailing unterminated
line is dropped); provided no terminated line trims to nothing (such a
line panics, see the safety claim), HasChanges returns false when every
terminated line's trimmed form begins with `?`, and true when some
terminated line's trimmed form begins with a different character. -/
theorem hasChanges_terminated_lines (r : ExecResult)
    (hs : r.started = true) (h0 : r.exitCode = 0)
    (hws : ∀ l ∈ termLines r.output.data, (trimSpace (String.mk l)).data ≠ []) :
    HasChanges r = GoResult.ok
      (((termLines r.output.data).any
        (fun l => (trimSpace (String.mk l)).data.headD '?' != '?')), none) := by
  have hre : runErrMsg r = none := by simp [runErrMsg, hs, h0]
  have h := scanStatusGo_characterization r.output.data []
    (by simpa [termLines] using hws)
  simp [HasChanges, hre, scanStatus, termLines, h]

/-- Witness for the amended C6: one untracked line, one modified line. -/
theorem hasChanges_terminated_lines_witness :
    HasChanges ⟨true, "", 0, "?? a\n M b\n"⟩ = GoResult.ok (true, none) := by
  rw [hasChanges_terminated_lines ⟨true, "", 0, "?? a\n M b\n"⟩ rfl rfl (by decide)]
  decide

/-- C5: the push-remote lookup returns the `branch.<b>.pushRemote` value
when that read succeeds (in particular when both keys are configured),
else the `branch.<b>.remote` value when that read succeeds, and fails
exactly when both reads fail. -/
theorem getPushRemote_prefers_pushRemote (exec : List String → ExecResult) (b : String) :
    (∀ v, GitOutputVia exec ["config", "--get", "branch." ++ b ++ ".pushRemote"] = (v, none) →
      GetPushRemoteForBranch exec b = (v, none)) ∧
    (∀ v1 e1 v2,
      GitOutputVia exec ["config", "--get", "branch." ++ b ++ ".pushRemote"] = (v1, some e1) →
      GitOutputVia exec ["config", "--get", "branch." ++ b ++ ".remote"] = (v2, none) →
      GetPushRemoteForBranch exec b = (v2, none)) ∧
    ((GetPushRemoteForBranch exec b).2.isSome ↔
      ((GitOutputVia exec ["config", "--get", "branch." ++ b ++ ".pushRemote"]).2.isSome ∧
       (GitOutputVia exec ["config", "--get", "branch." ++ b ++ ".remote"]).2.isSome)) := by
  refine ⟨?_, ?_, ?_⟩
  · intro v hv
    simp [GetPushRemoteForBranch, hv]
  · intro v1 e1 v2 h1 h2
    simp [GetPushRemoteForBranch, h1, h2]
  · cases h1 : GitOutputVia exec ["config", "--get", "branch." ++ b ++ ".pushRemote"] with
    | mk v1 o1 =>
      cases o1 with
      | none => simp [GetPushRemoteForBranch, h1]
      | some e1 =>
        cases h2 : GitOutputVia exec ["config", "--get", "branch." ++ b ++ ".remote"] with
        | mk v2 o2 =>
          cases o2 with
          | none => simp [GetPushRemoteForBranch, h1, h2]
          | some e2 => simp [GetPushRemoteForBranch, h1, h2]

/-- Oracle for the C5 witness: both config keys are configured. -/
def bothConfigured : List String → ExecResult := fun args =>
  if args = ["config", "--get", "branch.main.pushRemote"] then ⟨true, "", 0, "fork\n"⟩
  else ⟨true, "", 0, "origin\n"⟩

/-- Witness for C5: with both keys configured, the pushRemote value wins. -/
theorem getPushRemote_prefers_pushRemote_witness :
    GetPushRemoteForBranch bothConfigured "main" = ("fork", none) :=
  (getPushRemote_prefers_pushRemote bothConfigured "main").1 "fork" (by decide)

/-- Does `needle` occur as a contiguous segment of `hay`? -/
def occursIn (needle : List Char) : List Char → Bool
  | [] => needle.isEmpty
  | c :: cs => needle.isPrefixOf (c :: cs) || occursIn needle cs

/-- C3 counterexample: GetCurrentBranchName is an exported operation and
none of the three stated exceptions, yet on an invocation failure its
error text carries only the execution error and the captured output —
the command-line text `git branch --show-current` does not occur in it. -/
theorem invocationError_attachment_counterexample :
    (GetCurrentBranchName ⟨true, "", 128, "fatal: not a git repository"⟩).2 =
      some "exit status 128: fatal: not a git repository" ∧
    occursIn (cmdString ["branch", "--show-current"]).data
      "exit status 128: fatal: not a git repository".data = false := by
  decide

/-- C3 amended: the operations routed through `FormatOutput` (the
GitOutput family: describe, rev-parse, log, fork-point, config lookups,
notes, push, …) attach both the command-line text and the captured
output to invocation failures; but GetCurrentBranchName attaches only
the captured output, HasChanges names the invocation without attaching
the captured output, and Diff returns the run error unchanged with the
captured output in a separately returned buffer. -/
theorem invocationError_attachment (r : ExecResult) (e : String)
    (hs : r.started = true) (hre : runErrMsg r = some e) :
    (∀ args, GitOutput r args =
      ("", some ((e ++ ": " ++ cmdString args) ++ "\n" ++ r.output))) ∧
    GetCurrentBranchName r = ("", some (e ++ ": " ++ r.output)) ∧
    HasChanges r = GoResult.ok (true, some ("error running `git status -s`: " ++ e)) ∧
    Diff r = (r.output, some e) := by
  refine ⟨?_, ?_, ?_, ?_⟩
  · intro args
    simp [GitOutput, FormatOutput, combinedOutput, hre, hs]
  · simp [GetCurrentBranchName, combinedOutput, hre, hs]
  · simp [HasChanges, hre]
  · simp [Diff, combinedOutput, hre, hs]

/-- Witness for the amended C3 at a concrete failing invocation. -/
theorem invocationError_attachment_witness :
    GetCurrentBranchName ⟨true, "", 1, "boom"⟩ = ("", some "exit status 1: boom") ∧
    HasChanges ⟨true, "", 1, "boom"⟩ =
      GoResult.ok (true, some "error running `git status -s`: exit status 1") ∧
    Diff ⟨true, "", 1, "boom"⟩ = ("boom", some "exit status 1") := by
  have h := invocationError_attachment ⟨true, "", 1, "boom"⟩ "exit status 1" rfl (by decide)
  refine ⟨?_, ?_, ?_⟩
  · rw [h.2.1]
    rfl
  · rw [h.2.2.1]
    rfl
  · rw [h.2.2.2]
